import Mathlib

/-!
Shallow embedding of the issue-tree subsystem of the gira CLI.

The embedding follows the Go sources:
- `pkg/jira/utils.go` — relationship resolver (`GetChildIssues`) and depth-bounded
  tree builder (`BuildIssueTree`);
- `cmd/tree/tree.go` — forward ASCII renderer (`renderTree`), reverse renderer
  (`renderTreeReverse`), tabular flatten (`collectTableRowsRecursively`,
  `buildTableRow`, `truncateString`);
- `pkg/utils/strings/strings.go` — the shared rune-aware `Truncate` helper;
- the `JIRATime.UnmarshalJSON` method together with a model of Go's
  `time.Parse` specialized to the fixed layout `2006-01-02T15:04:05.000-0700`.

Modelling conventions: Go strings are Lean `String`s (rune level) except where
byte-level behaviour matters (`truncateString` in `cmd/tree/tree.go` slices by
bytes; it is modelled over the UTF-8 byte list, with `none` standing for the
runtime panic of a negative slice bound).  Functions that print are modelled as
returning the list of printed lines.  The two network-calling functions also
return the list of JQL query strings they issued, in order, so that claims about
"no query issued" and "no retry at this layer" are statable; the first pair
component is exactly the Go return value.
-/

namespace Gira

/-- Status payload struct (pkg/jira types). -/
structure Status where
  id : String
  name : String
  description : String
deriving DecidableEq

/-- IssueType payload struct (pkg/jira types). -/
structure IssueType where
  id : String
  name : String
  description : String
  iconURL : String
deriving DecidableEq

/-- Priority payload struct (pkg/jira types). -/
structure Priority where
  id : String
  name : String
  iconURL : String
deriving DecidableEq

/-- User payload struct (pkg/jira types). -/
structure User where
  accountID : String
  displayName : String
  emailAddress : String
deriving DecidableEq

/-- Project payload struct (pkg/jira types). -/
structure Project where
  id : String
  key : String
  name : String
deriving DecidableEq

/-- Wall-clock timestamp as parsed from JIRA's format; models the Go `time.Time`
stored inside `JIRATime` restricted to what the program observes (the parsed
calendar fields and the numeric zone offset exactly as parsed — Go's parser
applies no range check to numeric zone offsets). -/
structure DateTime where
  year : Nat
  month : Nat
  day : Nat
  hour : Nat
  minute : Nat
  second : Nat
  millis : Nat
  tzNeg : Bool
  tzH : Nat
  tzM : Nat
deriving DecidableEq

/-- Inline subtask reference.  In the source, `IssueFields.Subtasks` is declared
as `[]Issue`, but the resolver reads only the `Key` field of each entry, which
is what this record keeps. -/
structure SubtaskRef where
  key : String
deriving DecidableEq

/-- The issue fields used by the embedded code (`IssueFields` in the source;
`IssueLinks` and the raw `Fields.Parent` reference are never read by the
embedded functions and are omitted). -/
structure IssueFields where
  summary : String
  description : String
  issueType : IssueType
  status : Status
  priority : Priority
  assignee : Option User
  reporter : Option User
  project : Project
  subtasks : List SubtaskRef
  created : DateTime
  updated : DateTime
deriving DecidableEq

/-- One tracked work item (`Issue` in the source), with the two
tree-augmentation fields: `parent` (the ancestor back-reference, `nil` unless
some caller populates it) and `children` (the owned subtree, populated by the
Tree Builder). -/
inductive Issue : Type where
  | mk (key : String) (fields : IssueFields) (parent : Option Issue)
      (children : List Issue) : Issue

def Issue.key : Issue → String
  | .mk k _ _ _ => k

def Issue.fields : Issue → IssueFields
  | .mk _ f _ _ => f

def Issue.parent : Issue → Option Issue
  | .mk _ _ p _ => p

def Issue.children : Issue → List Issue
  | .mk _ _ _ c => c

/-- In-place assignment `issue.Children = cs` of the Go code, as a functional
update. -/
def Issue.setChildren : Issue → List Issue → Issue
  | .mk k f p _, cs => .mk k f p cs

/-- Search response (`SearchResult` in the source); only `issues` is read by the
embedded code. -/
structure SearchResult where
  issues : List Issue
  startAt : Int
  maxResults : Int
  total : Int

/-- The transport collaborator.  The resolver and builder only use
`Client.SearchIssues`; it is modelled as a pure function from the JQL string to
either an error or a result (the field projection argument is the constant
`childrenSearchFields` at every call site and is dropped). -/
structure Client where
  searchIssues : String → Except String SearchResult

/-! ## pkg/utils/strings/strings.go -/

/-- Model of `Truncate` from `pkg/utils/strings/strings.go`.  Go's
`utf8.RuneCountInString s` is `s.length` (runes), `[]rune(s)[:k]` is
`s.toList.take k`. -/
def Truncate (s : String) (maxLen : Int) : String :=
  if maxLen ≤ 0 then ""
  else if maxLen ≤ 3 then
    if (s.length : Int) ≤ maxLen then s
    else ⟨s.toList.take maxLen.toNat⟩
  else if (s.length : Int) ≤ maxLen then s
  else ⟨s.toList.take (maxLen - 3).toNat⟩ ++ "..."

/-! ## UTF-8 byte model, for the byte-sliced private helper in cmd/tree -/

/-- Standard UTF-8 encoding of one code point, as the list of byte values. -/
def utf8EncodeChar (c : Char) : List Nat :=
  let n := c.toNat
  if n < 0x80 then [n]
  else if n < 0x800 then
    [0xC0 ||| (n >>> 6), 0x80 ||| (n &&& 0x3F)]
  else if n < 0x10000 then
    [0xE0 ||| (n >>> 12), 0x80 ||| ((n >>> 6) &&& 0x3F), 0x80 ||| (n &&& 0x3F)]
  else
    [0xF0 ||| (n >>> 18), 0x80 ||| ((n >>> 12) &&& 0x3F),
      0x80 ||| ((n >>> 6) &&& 0x3F), 0x80 ||| (n &&& 0x3F)]

/-- The byte sequence of a Go string (Go strings are raw UTF-8 bytes). -/
def utf8Encode (s : String) : List Nat :=
  (s.toList.map utf8EncodeChar).flatten

/-- Model of `truncateString` from `cmd/tree/tree.go`.  Go's `len(s)` is the byte length
and `s[:k]` slices bytes, so the model works on the UTF-8 byte list.  The Go
expression `s[:maxLen-3]` panics at run time when `maxLen-3` is negative; the
model returns `none` exactly there (the upper bound `maxLen-3 < len(s)` always
holds on this branch, so no other panic is possible). -/
def truncateString (s : List Nat) (maxLen : Int) : Option (List Nat) :=
  if (s.length : Int) ≤ maxLen then some s
  else if 0 ≤ maxLen - 3 then some (s.take (maxLen - 3).toNat ++ utf8Encode "...")
  else none

/-! ## JIRATime.UnmarshalJSON and Go time.Parse on the fixed layout -/

/-- Reads exactly `k` digits (Go's `getnum(value, true)` chained, and the
4-digit year read of layout `2006`), accumulating the value left to right. -/
def readNum : Nat → Nat → List Char → Option (Nat × List Char)
  | 0, acc, cs => some (acc, cs)
  | k + 1, acc, c :: rest =>
    if c.isDigit then readNum k (acc * 10 + (c.toNat - 48)) rest else none
  | _ + 1, _, [] => none

/-- Reads one or two digits: Go's `getnum(value, false)`, used for the
24-hour field of layout `15`. -/
def readHour : List Char → Option (Nat × List Char)
  | [] => none
  | c :: rest =>
    if c.isDigit then
      match rest with
      | c2 :: rest2 =>
        if c2.isDigit then some ((c.toNat - 48) * 10 + (c2.toNat - 48), rest2)
        else some (c.toNat - 48, rest)
      | [] => some (c.toNat - 48, [])
    else none

/-- Consumes one expected literal layout character. -/
def expectCh (ch : Char) : List Char → Option (List Char)
  | c :: rest => if c = ch then some rest else none
  | [] => none

/-- Gregorian leap-year rule, as in Go's `isLeap`. -/
def isLeapYear (y : Nat) : Bool :=
  y % 4 == 0 && (y % 100 != 0 || y % 400 == 0)

/-- Days in a month, as in Go's `daysIn` (used by `time.Parse` to validate the
day of month). -/
def daysIn (m y : Nat) : Nat :=
  if m = 2 then (if isLeapYear y then 29 else 28)
  else if m = 4 ∨ m = 6 ∨ m = 9 ∨ m = 11 then 30
  else 31

/-- Model of Go `time.Parse("2006-01-02T15:04:05.000-0700", s)` success.
Field by field: 4-digit year; literal `-`; 2-digit month; literal `-`; 2-digit
day; literal `T`; one-OR-two digit hour (layout `15` uses `getnum(value,false)`);
literal `:`; 2-digit minute; `:`; 2-digit second; a fractional-seconds
separator `.` or `,` (`parseNanoseconds` accepts either since Go 1.17) with a
fixed three-character body parsed by Go's internal `atoi` — three digits, or a
`+` followed by two digits (`atoi` tolerates a leading `+`; a leading `-`
yields a negative value that the `fractional second` range check rejects); a
`+` or `-` sign with four zone digits (`stdNumTZ`, no range check); no trailing
text.  Range checks as in Go: month 1–12, day valid for the month and
(leap-aware) year, hour < 24, minute < 60, second < 60. -/
def readSign : List Char → Option (Bool × List Char)
  | '+' :: rest => some (false, rest)
  | '-' :: rest => some (true, rest)
  | _ => none

/-- The fractional-seconds separator: Go's `commaOrPeriod` accepts `.` or `,`. -/
def expectFracSep : List Char → Option (List Char)
  | c :: rest => if c = '.' ∨ c = ',' then some rest else none
  | _ => none

/-- The fixed three-character fraction body of layout `.000`: Go slices exactly
three characters and runs its internal `atoi` on them, so either three digits
or a `+` followed by two digits are accepted (a `-` makes the value negative,
which the `fractional second` range check then rejects). -/
def readFracBody : List Char → Option (Nat × List Char)
  | c1 :: c2 :: c3 :: rest =>
    if c1.isDigit ∧ c2.isDigit ∧ c3.isDigit then
      some ((c1.toNat - 48) * 100 + (c2.toNat - 48) * 10 + (c3.toNat - 48), rest)
    else if c1 = '+' ∧ c2.isDigit ∧ c3.isDigit then
      some ((c2.toNat - 48) * 10 + (c3.toNat - 48), rest)
    else none
  | _ => none

/-- Final calendar validation of Go's `Parse` on this layout: no trailing text,
month 1–12, day valid for the month and (leap-aware) year, hour < 24,
minute < 60, second < 60. -/
def validRanges (cs : List Char) (y mo d hh mi ss : Nat) : Bool :=
  cs.isEmpty && 1 ≤ mo && mo ≤ 12 && 1 ≤ d && decide (d ≤ daysIn mo y) &&
    hh < 24 && mi < 60 && ss < 60

/-- Parses the date part `2006-01-02`, returning year, month, day and the rest. -/
def parseDatePart (cs : List Char) : Option (Nat × Nat × Nat × List Char) :=
  (readNum 4 0 cs).bind fun py =>
  (expectCh '-' py.2).bind fun cs1 =>
  (readNum 2 0 cs1).bind fun pm =>
  (expectCh '-' pm.2).bind fun cs2 =>
  (readNum 2 0 cs2).bind fun pd =>
  some (py.1, pm.1, pd.1, pd.2)

/-- Parses the clock part `15:04:05.000`, returning hour, minute, second,
milliseconds and the rest (the fraction separator may be `.` or `,`). -/
def parseClockPart (cs : List Char) : Option (Nat × Nat × Nat × Nat × List Char) :=
  (readHour cs).bind fun ph =>
  (expectCh ':' ph.2).bind fun cs1 =>
  (readNum 2 0 cs1).bind fun pmi =>
  (expectCh ':' pmi.2).bind fun cs2 =>
  (readNum 2 0 cs2).bind fun ps =>
  (expectFracSep ps.2).bind fun cs3 =>
  (readFracBody cs3).bind fun pf =>
  some (ph.1, pmi.1, ps.1, pf.1, pf.2)

/-- Parses the numeric zone `-0700`: a sign and four digits, no range check. -/
def parseZonePart (cs : List Char) : Option (Bool × Nat × Nat × List Char) :=
  (readSign cs).bind fun pn =>
  (readNum 2 0 pn.2).bind fun pzh =>
  (readNum 2 0 pzh.2).bind fun pzm =>
  some (pn.1, pzh.1, pzm.1, pzm.2)

def parseJiraTimestamp (s : String) : Option DateTime :=
  (parseDatePart s.data).bind fun pd =>
  (expectCh 'T' pd.2.2.2).bind fun cs1 =>
  (parseClockPart cs1).bind fun pc =>
  (parseZonePart pc.2.2.2.2).bind fun pz =>
  if validRanges pz.2.2.2 pd.1 pd.2.1 pd.2.2.1 pc.1 pc.2.1 pc.2.2.1 then
    some ⟨pd.1, pd.2.1, pd.2.2.1, pc.1, pc.2.1, pc.2.2.1, pc.2.2.2.1,
      pz.1, pz.2.1, pz.2.2.1⟩
  else none

/-- The quote stripping at the top of `JIRATime.UnmarshalJSON`: Go tests
`len(s) >= 2 && s[0] == '"' && s[len(s)-1] == '"'` on bytes; a `"` byte is never
part of a multi-byte UTF-8 sequence, so the char-level test is equivalent. -/
def stripQuotes (s : String) : String :=
  let cs := s.data
  if 2 ≤ cs.length ∧ cs.head? = some '"' ∧ cs.getLast? = some '"' then
    ⟨(cs.drop 1).dropLast⟩
  else s

/-- Model of `JIRATime.UnmarshalJSON`.  On parse failure Go returns
`fmt.Errorf("failed to parse JIRA timestamp %q: %w", s, err)`; the wrapped
`time.Parse` error text is modelled by the opaque tail `"parse error"` (only the
presence of the offending string matters to the claims). -/
def UnmarshalJSON (data : String) : Except String DateTime :=
  let s := stripQuotes data
  match parseJiraTimestamp s with
  | some t => .ok t
  | none => .error ("failed to parse JIRA timestamp \"" ++ s ++ "\": parse error")

def isOkE (e : Except String DateTime) : Bool :=
  match e with
  | .ok _ => true
  | .error _ => false

/-- Literal reading of the spec's format `YYYY-MM-DDTHH:MM:SS.mmm±HHMM`:
exactly 28 characters, with digits and separator literals in the pattern's
positions (in particular a two-digit hour). -/
def specMatchesJiraFormat (s : String) : Bool :=
  match s.data with
  | [y1, y2, y3, y4, h1, m1, m2, h2, d1, d2, t, hh1, hh2, c1, mi1, mi2, c2,
      s1, s2, dot, f1, f2, f3, sg, z1, z2, z3, z4] =>
    [y1, y2, y3, y4, m1, m2, d1, d2, hh1, hh2, mi1, mi2, s1, s2, f1, f2, f3,
        z1, z2, z3, z4].all Char.isDigit &&
      h1 == '-' && h2 == '-' && t == 'T' && c1 == ':' && c2 == ':' &&
      dot == '.' && (sg == '+' || sg == '-')
  | _ => false

/-- Substring test used to state "the error names the offending string". -/
def containsAux (pat : List Char) : List Char → Bool
  | [] => pat.isEmpty
  | c :: rest => pat.isPrefixOf (c :: rest) || containsAux pat rest

def strContains (hay pat : String) : Bool :=
  containsAux pat.data hay.data

/-! ## pkg/jira/utils.go — relationship resolver -/

/-- The batch JQL built for the inline subtasks:
`fmt.Sprintf("key IN (%s)", strings.Join(subtaskKeys, ","))`. -/
def subtaskJQL (p : Issue) : String :=
  "key IN (" ++ String.intercalate "," (p.fields.subtasks.map SubtaskRef.key) ++ ")"

/-- The combined relationship JQL:
`fmt.Sprintf("parent = %s OR \"Epic Link\" = %s", key, key)`. -/
def combinedJQL (p : Issue) : String :=
  "parent = " ++ p.key ++ " OR \"Epic Link\" = " ++ p.key

/-- The `foundKeys`-guarded append loop over the combined query results: skip an
issue whose key was already marked found, otherwise append it and mark its key. -/
def dedupFilter (seen : List String) : List Issue → List Issue
  | [] => []
  | i :: rest =>
    if i.key ∈ seen then dedupFilter seen rest
    else i :: dedupFilter (i.key :: seen) rest

/-- Model of `GetChildIssues` from `pkg/jira/utils.go`.  First component is the Go return
value; the second lists the JQL queries issued, in order (instrumentation for
the abort/no-retry claims).  `foundKeys` is seeded with the declared subtask
keys before the batch fetch, the batch results are appended unconditionally, and
the combined results go through the dedup loop — exactly as in the source. -/
def GetChildIssues (client : Client) (parentIssue : Issue) :
    Except String (List Issue) × List String :=
  let combined := combinedJQL parentIssue
  if parentIssue.fields.subtasks.length > 0 then
    let subtaskKeys := parentIssue.fields.subtasks.map SubtaskRef.key
    let batchQ := subtaskJQL parentIssue
    match client.searchIssues batchQ with
    | .error e => (.error ("failed to batch fetch subtasks: " ++ e), [batchQ])
    | .ok res1 =>
      match client.searchIssues combined with
      | .error e =>
        (.error ("JQL search failed for '" ++ combined ++ "': " ++ e),
          [batchQ, combined])
      | .ok res2 =>
        (.ok (res1.issues ++ dedupFilter subtaskKeys res2.issues),
          [batchQ, combined])
  else
    match client.searchIssues combined with
    | .error e =>
      (.error ("JQL search failed for '" ++ combined ++ "': " ++ e), [combined])
    | .ok res2 => (.ok (dedupFilter [] res2.issues), [combined])

/-! ## pkg/jira/utils.go — tree builder -/

/-- The per-child loop of `BuildIssueTree`: each child is built recursively by
`build`; on the first failing child the loop aborts, keeping exactly the
children appended so far (the failing child is not appended). -/
def buildChildrenWith (build : Issue → (Issue × Option String) × List String) :
    List Issue → (List Issue × Option String) × List String
  | [] => (([], none), [])
  | c :: rest =>
    let ((c2, err), tr) := build c
    match err with
    | some e => (([], some e), tr)
    | none =>
      let ((rest2, err2), tr2) := buildChildrenWith build rest
      ((c2 :: rest2, err2), tr ++ tr2)

/-- Fuel-indexed body of `BuildIssueTree`; the fuel is `maxDepth.toNat`, so
fuel 0 is exactly Go's `maxDepth <= 0` base case and the recursive call at
`maxDepth-1` is the call at fuel `n`.  The `Issue × Option String` component is
the post-call state of the (in Go, mutated-in-place) issue paired with the error
return; the final list is the trace of issued queries. -/
def buildFuel (client : Client) : Nat → Issue → (Issue × Option String) × List String
  | 0, issue => ((issue.setChildren [], none), [])
  | n + 1, issue =>
    match GetChildIssues client issue with
    | (.error e, tr) =>
      ((issue, some ("failed to get child issues for " ++ issue.key ++ ": " ++ e)), tr)
    | (.ok cs, tr) =>
      let ((built, err), tr2) := buildChildrenWith (buildFuel client n) cs
      ((issue.setChildren built, err), tr ++ tr2)

/-- Model of `BuildIssueTree` from `pkg/jira/utils.go` (client, issue, maxDepth as in the
source signature). -/
def BuildIssueTree (client : Client) (issue : Issue) (maxDepth : Int) :
    (Issue × Option String) × List String :=
  buildFuel client maxDepth.toNat issue

mutual
/-- Depth-budget invariant at fuel `n`: children are empty when the budget is
exhausted, and every child satisfies the invariant at budget `n - 1`.  A node at
distance `d` below the root of a `depthOKN n` tree therefore has empty children
whenever `n - d ≤ 0`. -/
def depthOKN : Nat → Issue → Bool
  | 0, .mk _ _ _ ch => ch.isEmpty
  | n + 1, .mk _ _ _ ch => depthOKListN n ch
termination_by _ t => sizeOf t
decreasing_by all_goals (simp_wf <;> omega)
def depthOKListN : Nat → List Issue → Bool
  | _, [] => true
  | n, c :: rest => depthOKN n c && depthOKListN n rest
termination_by _ l => sizeOf l
decreasing_by all_goals (simp_wf <;> omega)
end

mutual
/-- Number of nodes of the owned (children) subtree. -/
def treeSize : Issue → Nat
  | .mk _ _ _ ch => 1 + treeSizeList ch
termination_by t => sizeOf t
decreasing_by all_goals (simp_wf <;> omega)
def treeSizeList : List Issue → Nat
  | [] => 0
  | c :: rest => treeSize c + treeSizeList rest
termination_by l => sizeOf l
decreasing_by all_goals (simp_wf <;> omega)
end

mutual
/-- No node of the owned subtree has its ancestor back-reference populated
(true of every tree the downward Tree Builder produces). -/
def noAncestor : Issue → Bool
  | .mk _ _ par ch => par.isNone && noAncestorList ch
termination_by t => sizeOf t
decreasing_by all_goals (simp_wf <;> omega)
def noAncestorList : List Issue → Bool
  | [] => true
  | c :: rest => noAncestor c && noAncestorList rest
termination_by l => sizeOf l
decreasing_by all_goals (simp_wf <;> omega)
end

/-! ## cmd/tree/tree.go — label formatting -/

/-- Model of `getAssigneeDisplay`. -/
def getAssigneeDisplay (issue : Issue) : String :=
  match issue.fields.assignee with
  | some u => u.displayName
  | none => "Unassigned"

/-- Model of `formatIssueInfo`; `showAll` is the `--all` flag (verbose label). -/
def formatIssueInfo (showAll : Bool) (issue : Issue) : String :=
  if showAll then
    issue.key ++ ": " ++ issue.fields.summary ++ " [" ++ issue.fields.status.name
      ++ "] (" ++ issue.fields.issueType.name ++ ") - " ++ getAssigneeDisplay issue
  else
    let st :=
      if issue.fields.status.name ≠ "" then " [" ++ issue.fields.status.name ++ "]"
      else ""
    issue.key ++ ": " ++ issue.fields.summary ++ st

/-! ## cmd/tree/tree.go — forward ASCII renderer -/

mutual
/-- Model of `renderTree`: the `none` case is the `issue == nil` guard; the result is the
list of printed lines.  `renderTreeChildren` is the `for i, child` loop with
`isLastChild := i == len(children)-1`.  The test `par.isNone` is Go's
`issue.Parent == nil`. -/
def renderTree (showAll : Bool) :
    Option Issue → String → Int → Bool → List String
  | none, _, _, _ => []
  | some (.mk k f par ch), pfx, depth, isLast =>
    let self := Issue.mk k f par ch
    let connector :=
      if depth ≤ 0 ∧ par.isNone then ""
      else if isLast then "└── " else "├── "
    let childPfx :=
      if depth ≤ 0 ∧ par.isNone then ""
      else if isLast then pfx ++ "    " else pfx ++ "│   "
    (pfx ++ connector ++ formatIssueInfo showAll self)
      :: renderTreeChildren showAll childPfx (depth + 1) ch
termination_by o _ _ _ => sizeOf o
decreasing_by all_goals (simp_wf <;> omega)
def renderTreeChildren (showAll : Bool) (pfx : String) (depth : Int) :
    List Issue → List String
  | [] => []
  | [c] => renderTree showAll (some c) pfx depth true
  | c :: c2 :: rest =>
    renderTree showAll (some c) pfx depth false
      ++ renderTreeChildren showAll pfx depth (c2 :: rest)
termination_by l => sizeOf l
decreasing_by all_goals (simp_wf <;> omega)
end

/-! ## cmd/tree/tree.go — reverse ASCII renderer -/

mutual
/-- Model of `renderTreeReverse`: children first, then the node's own line, then the
ancestor chain (`issue.Parent != nil` guard is the `none` base case of the
recursive call). -/
def renderTreeReverse (showAll : Bool) :
    Option Issue → String → Int → Bool → List String
  | none, _, _, _ => []
  | some (.mk k f par ch), pfx, depth, isLast =>
    let self := Issue.mk k f par ch
    let childPfx :=
      if depth ≤ 0 then ""
      else if isLast then pfx ++ "    " else pfx ++ "│   "
    let connector :=
      if depth ≤ 0 then ""
      else if isLast then "└── " else "├── "
    renderTreeReverseChildren showAll childPfx (depth + 1) ch
      ++ [pfx ++ connector ++ formatIssueInfo showAll self]
      ++ renderTreeReverse showAll par "" (depth - 1) true
termination_by o _ _ _ => sizeOf o
decreasing_by all_goals (simp_wf <;> omega)
def renderTreeReverseChildren (showAll : Bool) (pfx : String) (depth : Int) :
    List Issue → List String
  | [] => []
  | [c] => renderTreeReverse showAll (some c) pfx depth true
  | c :: c2 :: rest =>
    renderTreeReverse showAll (some c) pfx depth false
      ++ renderTreeReverseChildren showAll pfx depth (c2 :: rest)
termination_by l => sizeOf l
decreasing_by all_goals (simp_wf <;> omega)
end

/-! ## cmd/tree/tree.go — tabular flatten -/

/-- Left-pads a numeral with zeros; models Go's zero-padded `Format` verbs for
the date layout `2006-01-02` at the field widths the program uses. -/
def padZeros (w : Nat) (n : Nat) : String :=
  let s := toString n
  ⟨List.replicate (w - s.length) '0'⟩ ++ s

/-- Model of `jt.Format("2006-01-02")` on the stored timestamp. -/
def formatDate (t : DateTime) : String :=
  padZeros 4 t.year ++ "-" ++ padZeros 2 t.month ++ "-" ++ padZeros 2 t.day

/-- Model of `strings.Repeat(s, n)`. -/
def repeatStr (s : String) (n : Nat) : String :=
  String.join (List.replicate n s)

/-- Model of `buildTableRow`.  Each cell is a UTF-8 byte list so that the byte-sliced
`truncateString` can be applied faithfully; `none` propagates the panic it can
raise (dead at the fixed widths 40 and 50 used here). -/
def buildTableRow (showAll : Bool) (issue : Issue) (depth : Int) :
    Option (List (List Nat)) :=
  let idColumn :=
    if depth = 0 then issue.key
    else if depth < 0 then issue.key
    else if depth = 1 then "├── " ++ issue.key
    else repeatStr "│   " (depth - 1).toNat ++ "├── " ++ issue.key
  if showAll then
    match truncateString (utf8Encode issue.fields.summary) 40 with
    | none => none
    | some tsum =>
      some [utf8Encode idColumn, utf8Encode issue.fields.issueType.name, tsum,
        utf8Encode issue.fields.status.name, utf8Encode issue.fields.priority.name,
        utf8Encode (getAssigneeDisplay issue),
        utf8Encode (formatDate issue.fields.created),
        utf8Encode (formatDate issue.fields.updated)]
  else
    match truncateString (utf8Encode issue.fields.summary) 50 with
    | none => none
    | some tsum =>
      some [utf8Encode idColumn, utf8Encode issue.fields.issueType.name, tsum,
        utf8Encode issue.fields.status.name, utf8Encode (getAssigneeDisplay issue)]

mutual
/-- Model of `collectTableRowsRecursively`: ancestor-chain rows first, then the node's
own row, then the children at `depth+1`; the accumulated `rows` slice is the
returned list, and `none` propagates a `truncateString` panic. -/
def collectTableRowsRecursively (showAll : Bool) :
    Option Issue → Int → Option (List (List (List Nat)))
  | none, _ => some []
  | some (.mk k f par ch), depth =>
    (collectTableRowsRecursively showAll par (depth - 1)).bind fun parentRows =>
    (buildTableRow showAll (Issue.mk k f par ch) depth).bind fun row =>
    (collectChildRows showAll ch (depth + 1)).bind fun childRows =>
    some (parentRows ++ [row] ++ childRows)
termination_by o _ => sizeOf o
decreasing_by all_goals (simp_wf <;> omega)
def collectChildRows (showAll : Bool) :
    List Issue → Int → Option (List (List (List Nat)))
  | [], _ => some []
  | c :: rest, depth =>
    (collectTableRowsRecursively showAll (some c) depth).bind fun first =>
    (collectChildRows showAll rest depth).bind fun more =>
    some (first ++ more)
termination_by l _ => sizeOf l + 1
decreasing_by all_goals (simp_wf <;> omega)
end

/-! ## Spec-side comparison definitions -/

/-- Merge order as the spec words it: the batch results first, then the
combined-query results not yet seen, in first-seen order (dedup against the
keys of the batch results themselves). -/
def specMergeChildren (bs cs : List Issue) : List Issue :=
  bs ++ dedupFilter (bs.map Issue.key) cs

/-! ## Concrete fixtures used to exercise the theorems -/

def dt0 : DateTime := ⟨2025, 1, 1, 0, 0, 0, 0, false, 0, 0⟩

/-- Builds a fields record with the given type name, summary, status name and
subtask references; everything else empty. -/
def mkFields (ty sm st : String) (subs : List SubtaskRef) : IssueFields :=
  ⟨sm, "", ⟨"", ty, "", ""⟩, ⟨"", st, ""⟩, ⟨"", "", ""⟩, none, none,
    ⟨"", "", ""⟩, subs, dt0, dt0⟩

def iST1 : Issue := .mk "ST-1" (mkFields "Sub-task" "Sub one" "Open" []) none []

def iC1 : Issue := .mk "CH-1" (mkFields "Story" "Child one" "Open" []) none []

/-- The same key as `iST1`, as the combined query would return it. -/
def iST1dup : Issue :=
  .mk "ST-1" (mkFields "Sub-task" "Sub one from search" "Open" []) none []

def parentC1 : Issue :=
  .mk "P-1" (mkFields "Epic" "Parent" "Open" [⟨"ST-1"⟩]) none []

def clientC1 : Client := ⟨fun q =>
  if q = "key IN (ST-1)" then .ok ⟨[iST1], 0, 50, 1⟩
  else if q = "parent = P-1 OR \"Epic Link\" = P-1" then .ok ⟨[iC1, iST1dup], 0, 50, 2⟩
  else .error "unexpected query"⟩

/-- A transport whose subtask batch query fails. -/
def clientC3 : Client := ⟨fun q =>
  if q = "key IN (ST-1)" then .error "boom" else .error "other"⟩

def issueC : Issue := .mk "C" (mkFields "Story" "Level three" "Open" []) none []

def issueB : Issue := .mk "B" (mkFields "Story" "Level two" "Open" []) none []

def issueA : Issue := .mk "A" (mkFields "Story" "Level one" "Open" []) none []

def issueR : Issue := .mk "R" (mkFields "Epic" "Root epic" "Open" []) none []

/-- A transport serving a four-level hierarchy R, A, B, C (no subtasks). -/
def client4 : Client := ⟨fun q =>
  if q = "parent = R OR \"Epic Link\" = R" then .ok ⟨[issueA], 0, 50, 1⟩
  else if q = "parent = A OR \"Epic Link\" = A" then .ok ⟨[issueB], 0, 50, 1⟩
  else if q = "parent = B OR \"Epic Link\" = B" then .ok ⟨[issueC], 0, 50, 1⟩
  else if q = "parent = C OR \"Epic Link\" = C" then .ok ⟨[], 0, 50, 0⟩
  else .error "unexpected query"⟩

/-- A transport for which A resolves fine but B's combined query fails. -/
def clientC10 : Client := ⟨fun q =>
  if q = "parent = R OR \"Epic Link\" = R" then .ok ⟨[issueA, issueB], 0, 50, 2⟩
  else if q = "parent = A OR \"Epic Link\" = A" then .ok ⟨[], 0, 50, 0⟩
  else .error "boom"⟩

def SUB1 : Issue := .mk "SUB-1" (mkFields "Sub-task" "Sub one" "Open" []) none []

def STORY1 : Issue :=
  .mk "STORY-1" (mkFields "Story" "Story one" "Open" []) none [SUB1]

def STORY2 : Issue := .mk "STORY-2" (mkFields "Story" "Story two" "Open" []) none []

def EPIC0 : Issue := .mk "EPIC-0" (mkFields "Epic" "Epic zero" "Open" []) none []

/-- The end-to-end scenario tree with the ancestor chain populated on the root. -/
def scenarioEpic1 : Issue :=
  .mk "EPIC-1" (mkFields "Epic" "Epic one" "Open" []) (some EPIC0) [STORY1, STORY2]

/-- The same scenario tree without an ancestor reference (as the Tree Builder
produces it). -/
def scenarioEpic1f : Issue :=
  .mk "EPIC-1" (mkFields "Epic" "Epic one" "Open" []) none [STORY1, STORY2]

mutual
/-- Pre-order flatten of the owned subtree as the spec describes it: one row per
node, node before children.  The `getD []` default is dead because
`buildTableRow` is total at the fixed widths used by the program. -/
def specRowsFlatten (showAll : Bool) : Issue → Int → List (List (List Nat))
  | .mk k f par ch, depth =>
    (buildTableRow showAll (Issue.mk k f par ch) depth).getD []
      :: specRowsList showAll ch (depth + 1)
termination_by t _ => sizeOf t
decreasing_by all_goals (simp_wf <;> omega)
def specRowsList (showAll : Bool) : List Issue → Int → List (List (List Nat))
  | [], _ => []
  | c :: rest, depth =>
    specRowsFlatten showAll c depth ++ specRowsList showAll rest depth
termination_by l _ => sizeOf l
decreasing_by all_goals (simp_wf <;> omega)
end

/-! ## Helper lemmas -/

theorem strData_append (a b : String) : (a ++ b).data = a.data ++ b.data := by
  cases a
  cases b
  rfl

theorem strAppend_empty (s : String) : s ++ "" = s := by
  cases s with
  | mk d =>
    show String.mk (d ++ []) = String.mk d
    rw [List.append_nil]

theorem take_len_append (a b : List Issue) : (a ++ b).take a.length = a := by
  induction a with
  | nil => simp
  | cons x xs ih => simp [ih]

theorem setChildren_children (issue : Issue) (cs : List Issue) :
    (issue.setChildren cs).children = cs := by
  cases issue
  rfl

theorem string_len_zero (s : String) (h : s.length = 0) : s = "" := by
  cases s with
  | mk d =>
    have hd : d = [] := List.eq_nil_of_length_eq_zero h
    subst hd
    rfl

/-! ## C7 -/

/-- C7: the shared rune-aware `Truncate` returns the string unchanged when it
has at most `maxLen` runes; for `maxLen > 3` and longer input it keeps the first
`maxLen-3` runes and appends an ellipsis; for `0 < maxLen ≤ 3` it returns the
raw `maxLen`-rune prefix; and the three documented examples evaluate as the
spec says. -/
theorem c7_truncate_rule :
    (∀ (s : String) (m : Int), (s.length : Int) ≤ m → Truncate s m = s) ∧
    (∀ (s : String) (m : Int), 3 < m → m < (s.length : Int) →
      Truncate s m = ⟨s.toList.take (m - 3).toNat⟩ ++ "...") ∧
    (∀ (s : String) (m : Int), 0 < m → m ≤ 3 → m < (s.length : Int) →
      Truncate s m = ⟨s.toList.take m.toNat⟩) ∧
    Truncate "Hello World" 5 = "He..." ∧ Truncate "Hi" 10 = "Hi" ∧
    Truncate "abcdef" 2 = "ab" := by
  refine ⟨?_, ?_, ?_, by decide, by decide, by decide⟩
  · intro s m h
    unfold Truncate
    split_ifs <;> first | rfl | omega | exact (string_len_zero s (by omega)).symm
  · intro s m h1 h2
    unfold Truncate
    split_ifs <;> first | rfl | omega
  · intro s m h1 h2 h3
    unfold Truncate
    split_ifs <;> first | rfl | omega

/-- Witness for C7 at the spec's three concrete examples. -/
theorem c7_truncate_rule_witness :
    Truncate "Hi" 10 = "Hi" ∧
    Truncate "Hello World" 5 = ⟨"Hello World".toList.take ((5 : Int) - 3).toNat⟩ ++ "..." ∧
    Truncate "abcdef" 2 = ⟨"abcdef".toList.take (2 : Int).toNat⟩ :=
  ⟨c7_truncate_rule.1 "Hi" 10 (by decide),
    c7_truncate_rule.2.1 "Hello World" 5 (by decide) (by decide),
    c7_truncate_rule.2.2.1 "abcdef" 2 (by decide) (by decide) (by decide)⟩

/-! ## C9 -/

/-- C9: the private byte-based `truncateString` of the table renderer is not
total — for any byte string longer than `maxLen` with `maxLen < 3` it evaluates
the slice `s[:maxLen-3]` with a negative bound (a Go run-time panic, `none`
here); it is total whenever `3 ≤ maxLen`, which is what the fixed call-site
widths 40 and 50 rely on; and because it slices bytes rather than runes it
disagrees with the rune-aware shared `Truncate` on multi-byte input, cutting a
two-byte character in half. -/
theorem c9_truncateString_not_total :
    (∀ (s : List Nat) (m : Int), m < (s.length : Int) → m < 3 →
      truncateString s m = none) ∧
    (∀ (s : List Nat) (m : Int), 3 ≤ m → (truncateString s m).isSome = true) ∧
    truncateString (utf8Encode "ééééé") 4 = some ([195] ++ utf8Encode "...") ∧
    truncateString (utf8Encode "ééééé") 4 ≠ some (utf8Encode (Truncate "ééééé" 4)) := by
  refine ⟨?_, ?_, by decide, by decide⟩
  · intro s m h1 h2
    unfold truncateString
    split_ifs <;> first | rfl | omega
  · intro s m h
    unfold truncateString
    split_ifs <;> first | rfl | omega

/-- Witness for C9: a two-byte string at width 1 panics; any string is safe at
width 3 and above. -/
theorem c9_truncateString_not_total_witness :
    truncateString [104, 105] 1 = none ∧
    (truncateString [104, 105] 3).isSome = true :=
  ⟨c9_truncateString_not_total.1 [104, 105] 1 (by decide) (by decide),
    c9_truncateString_not_total.2.1 [104, 105] 3 (by decide)⟩

/-! ## C8 -/

theorem isPrefixOf_append_self (l t : List Char) : l.isPrefixOf (l ++ t) = true := by
  induction l with
  | nil => simp [List.isPrefixOf]
  | cons x xs ih => simp [List.isPrefixOf, ih]

theorem containsAux_sandwich (pat a b : List Char) :
    containsAux pat (a ++ (pat ++ b)) = true := by
  induction a with
  | nil =>
    cases pat with
    | nil =>
      cases b with
      | nil => rfl
      | cons y ys => rfl
    | cons p ps =>
      show containsAux (p :: ps) (p :: (ps ++ b)) = true
      unfold containsAux
      have hpre := isPrefixOf_append_self (p :: ps) b
      simp only [List.cons_append] at hpre
      rw [hpre]
      rfl
  | cons x xs ih =>
    show containsAux pat (x :: (xs ++ (pat ++ b))) = true
    unfold containsAux
    rw [ih]
    exact Bool.or_true _

theorem strContains_sandwich (a s b : String) : strContains (a ++ s ++ b) s = true := by
  unfold strContains
  rw [strData_append, strData_append, List.append_assoc]
  exact containsAux_sandwich s.data a.data b.data

/-- Counterexample to C8 as stated: on the JSON string
`"2025-05-12T6:54:41.542+0000"` (a single-digit hour), the unmarshaller
succeeds — the Go layout element `15` accepts one or two digits — although the
quote-stripped text does not match the spec pattern
`YYYY-MM-DDTHH:MM:SS.mmm±HHMM`, whose hour field `HH` is two digits. -/
theorem c8_cex_single_digit_hour :
    isOkE (UnmarshalJSON "\"2025-05-12T6:54:41.542+0000\"") = true ∧
    specMatchesJiraFormat "2025-05-12T6:54:41.542+0000" = false := by
  decide

/-- C8 (amended): `JIRATime.UnmarshalJSON` succeeds exactly when the
quote-stripped text parses under the Go layout `2006-01-02T15:04:05.000-0700`;
that acceptance differs from the literal pattern `YYYY-MM-DDTHH:MM:SS.mmm±HHMM`
in that the hour may be one or two digits, the fraction separator may be `,`
as well as `.`, the three-character fraction body may be `+` followed by two
digits, the month must be 01–12, the day must be a valid (leap-aware) calendar
day, hour < 24, minute and second < 60, and the four zone digits are
unchecked.  On every failure the error names the offending quote-stripped
string. -/
theorem c8_unmarshal_amended :
    (∀ (data : String),
      isOkE (UnmarshalJSON data) = (parseJiraTimestamp (stripQuotes data)).isSome) ∧
    (∀ (data e : String), UnmarshalJSON data = .error e →
      strContains e (stripQuotes data) = true) ∧
    (isOkE (UnmarshalJSON "\"2025-05-12T06:54:41.542+0000\"") = true ∧
      isOkE (UnmarshalJSON "\"2025-05-12T6:54:41.542+0000\"") = true ∧
      isOkE (UnmarshalJSON "\"2025-05-12T06:54:41,542+0000\"") = true ∧
      isOkE (UnmarshalJSON "\"2025-05-12T06:54:41.+42+0000\"") = true ∧
      isOkE (UnmarshalJSON "\"2025-05-12T06:54:41.-42+0000\"") = false ∧
      isOkE (UnmarshalJSON "\"2025-05-12T06:54:41;542+0000\"") = false ∧
      isOkE (UnmarshalJSON "\"2025-13-01T00:00:00.000+0000\"") = false ∧
      isOkE (UnmarshalJSON "\"2025-02-29T00:00:00.000+0000\"") = false ∧
      isOkE (UnmarshalJSON "\"2024-02-29T00:00:00.000+0000\"") = true ∧
      isOkE (UnmarshalJSON "\"2025-05-12T24:00:00.000+0000\"") = false ∧
      isOkE (UnmarshalJSON "\"2025-05-12T06:54:41.542+9959\"") = true ∧
      isOkE (UnmarshalJSON "\"2025-05-12T06:54:41.54+0000\"") = false ∧
      isOkE (UnmarshalJSON "not-a-date") = false) := by
  refine ⟨?_, ?_, by decide⟩
  · intro data
    unfold UnmarshalJSON
    cases h : parseJiraTimestamp (stripQuotes data) <;> simp [h, isOkE]
  · intro data e h
    simp only [UnmarshalJSON] at h
    cases hp : parseJiraTimestamp (stripQuotes data) <;> rw [hp] at h
    · simp only [Except.error.injEq] at h
      subst h
      exact strContains_sandwich "failed to parse JIRA timestamp \"" (stripQuotes data)
        "\": parse error"
    · exact absurd h (by simp)

/-- Witness for C8: a failing input whose error message contains the offending
string. -/
theorem c8_unmarshal_amended_witness :
    strContains "failed to parse JIRA timestamp \"bad\": parse error"
      (stripQuotes "\"bad\"") = true :=
  c8_unmarshal_amended.2.1 "\"bad\""
    "failed to parse JIRA timestamp \"bad\": parse error" rfl

/-! ## C1 -/

theorem dedupFilter_congr (l : List Issue) :
    ∀ (s1 s2 : List String), (∀ k, k ∈ s1 ↔ k ∈ s2) →
      dedupFilter s1 l = dedupFilter s2 l := by
  induction l with
  | nil => intro s1 s2 _ ; rfl
  | cons i rest ih =>
    intro s1 s2 h
    unfold dedupFilter
    by_cases hm : i.key ∈ s1
    · rw [if_pos hm, if_pos ((h i.key).1 hm)]
      exact ih s1 s2 h
    · rw [if_neg hm, if_neg (fun hx => hm ((h i.key).2 hx))]
      have := ih (i.key :: s1) (i.key :: s2) (by
        intro k
        simp only [List.mem_cons]
        exact or_congr Iff.rfl (h k))
      rw [this]

theorem dedupFilter_not_seen (l : List Issue) :
    ∀ (seen : List String) (K : String), K ∈ seen →
      K ∉ (dedupFilter seen l).map Issue.key := by
  induction l with
  | nil => intro seen K _ ; simp [dedupFilter]
  | cons i rest ih =>
    intro seen K hK
    unfold dedupFilter
    by_cases hm : i.key ∈ seen
    · rw [if_pos hm]
      exact ih seen K hK
    · rw [if_neg hm]
      simp only [List.map_cons, List.mem_cons, not_or]
      refine ⟨fun he => hm (he ▸ hK), ?_⟩
      exact ih (i.key :: seen) K (List.mem_cons_of_mem _ hK)

/-- C1: when the two queries succeed — the batch results carrying exactly the
declared subtask keys, each once — the resolver returns the batch results
followed by the not-yet-seen combined results in first-seen order
(`specMergeChildren`, worded from the spec); the batch results sit unchanged at
the front, and any key occurring in the batch occurs exactly once in the merged
key list. -/
theorem c1_resolver_merge (client : Client) (p : Issue) (bs cs : List Issue)
    (sr1 sr2 : SearchResult)
    (hb : if p.fields.subtasks = [] then bs = []
      else client.searchIssues (subtaskJQL p) = .ok sr1 ∧ sr1.issues = bs)
    (hc : client.searchIssues (combinedJQL p) = .ok sr2)
    (hcs : sr2.issues = cs)
    (hkeys : ∀ b ∈ bs, b.key ∈ p.fields.subtasks.map SubtaskRef.key)
    (hdecl : ∀ k ∈ p.fields.subtasks.map SubtaskRef.key, k ∈ bs.map Issue.key)
    (hnd : (bs.map Issue.key).Nodup) :
    (GetChildIssues client p).1 = .ok (specMergeChildren bs cs) ∧
    (specMergeChildren bs cs).take bs.length = bs ∧
    ∀ K, K ∈ bs.map Issue.key →
      ((specMergeChildren bs cs).map Issue.key).count K = 1 := by
  have hcount : ∀ K, K ∈ bs.map Issue.key →
      ((specMergeChildren bs cs).map Issue.key).count K = 1 := by
    intro K hK
    unfold specMergeChildren
    rw [List.map_append, List.count_append]
    rw [List.count_eq_one_of_mem hnd hK]
    rw [List.count_eq_zero_of_not_mem (dedupFilter_not_seen cs (bs.map Issue.key) K hK)]
  refine ⟨?_, ?_, hcount⟩
  · by_cases hsub : p.fields.subtasks = []
    · rw [if_pos hsub] at hb
      subst hb
      have hlen : ¬ p.fields.subtasks.length > 0 := by
        rw [hsub]
        decide
      simp only [GetChildIssues, if_neg hlen, hc, hcs]
      rfl
    · rw [if_neg hsub] at hb
      have hlen : p.fields.subtasks.length > 0 := List.length_pos.mpr hsub
      simp only [GetChildIssues, if_pos hlen, hb.1, hc]
      rw [hb.2, hcs]
      unfold specMergeChildren
      rw [dedupFilter_congr cs (p.fields.subtasks.map SubtaskRef.key) (bs.map Issue.key)
        (fun k => ⟨fun hk => hdecl k hk, ?_⟩)]
      intro hk
      obtain ⟨b, hbmem, hbk⟩ := List.mem_map.1 hk
      exact hbk ▸ hkeys b hbmem
  · unfold specMergeChildren
    exact take_len_append bs _

/-- Witness for C1: a parent with declared subtask ST-1, whose batch query
returns that subtask and whose combined query returns a new child and a
duplicate of ST-1. -/
theorem c1_resolver_merge_witness :
    (GetChildIssues clientC1 parentC1).1 = .ok (specMergeChildren [iST1] [iC1, iST1dup]) ∧
    (specMergeChildren [iST1] [iC1, iST1dup]).take [iST1].length = [iST1] ∧
    ((specMergeChildren [iST1] [iC1, iST1dup]).map Issue.key).count "ST-1" = 1 := by
  have h := c1_resolver_merge clientC1 parentC1 [iST1] [iC1, iST1dup]
    ⟨[iST1], 0, 50, 1⟩ ⟨[iC1, iST1dup], 0, 50, 2⟩
    (by rw [if_neg (by decide)] ; exact ⟨rfl, rfl⟩)
    rfl rfl (by decide) (by decide) (by decide)
  exact ⟨h.1, h.2.1, h.2.2 "ST-1" (by decide)⟩

/-! ## C3 -/

theorem subtaskJQL_head (p : Issue) : ∃ t, (subtaskJQL p).data = 'k' :: t := by
  unfold subtaskJQL
  rw [strData_append, strData_append]
  exact ⟨_, rfl⟩

theorem combinedJQL_head (p : Issue) : ∃ t, (combinedJQL p).data = 'p' :: t := by
  unfold combinedJQL
  rw [strData_append, strData_append, strData_append]
  exact ⟨_, rfl⟩

theorem subtaskJQL_ne_combinedJQL (p : Issue) : subtaskJQL p ≠ combinedJQL p := by
  intro h
  obtain ⟨t1, h1⟩ := subtaskJQL_head p
  obtain ⟨t2, h2⟩ := combinedJQL_head p
  rw [h, h2] at h1
  exact absurd (List.head_eq_of_cons_eq h1) (by decide)

/-- Counterexample to C3 as stated: when the subtask batch query fails, the
error is wrapped with the fixed text `failed to batch fetch subtasks:` and does
not contain the offending query text. -/
theorem c3_cex_batch_error_lacks_query :
    (GetChildIssues clientC3 parentC1).1 = .error "failed to batch fetch subtasks: boom" ∧
    strContains "failed to batch fetch subtasks: boom" (subtaskJQL parentC1) = false :=
  ⟨rfl, rfl⟩

/-- C3 (amended): any query failure aborts `GetChildIssues` immediately with no
child list.  A subtask-batch failure is wrapped with the fixed text
`failed to batch fetch subtasks:` (without the query text) and the combined
query is never issued; a combined-query failure is wrapped with the offending
combined query text.  Each JQL query is issued at most once (no retry at this
layer). -/
theorem c3_resolver_errors (client : Client) (p : Issue) (e : String) :
    (p.fields.subtasks ≠ [] → client.searchIssues (subtaskJQL p) = .error e →
      GetChildIssues client p =
        (.error ("failed to batch fetch subtasks: " ++ e), [subtaskJQL p])) ∧
    (p.fields.subtasks = [] → client.searchIssues (combinedJQL p) = .error e →
      GetChildIssues client p =
        (.error ("JQL search failed for '" ++ combinedJQL p ++ "': " ++ e),
          [combinedJQL p])) ∧
    (∀ sr1, p.fields.subtasks ≠ [] → client.searchIssues (subtaskJQL p) = .ok sr1 →
      client.searchIssues (combinedJQL p) = .error e →
      GetChildIssues client p =
        (.error ("JQL search failed for '" ++ combinedJQL p ++ "': " ++ e),
          [subtaskJQL p, combinedJQL p])) ∧
    (GetChildIssues client p).2.Nodup := by
  refine ⟨?_, ?_, ?_, ?_⟩
  · intro hne hbe
    have hlen : p.fields.subtasks.length > 0 := List.length_pos.mpr hne
    simp only [GetChildIssues, if_pos hlen, hbe]
  · intro hsub hce
    have hlen : ¬ p.fields.subtasks.length > 0 := by
      rw [hsub]
      decide
    simp only [GetChildIssues, if_neg hlen, hce]
  · intro sr1 hne hok hce
    have hlen : p.fields.subtasks.length > 0 := List.length_pos.mpr hne
    simp only [GetChildIssues, if_pos hlen, hok, hce]
  · by_cases hlen : p.fields.subtasks.length > 0
    · simp only [GetChildIssues, if_pos hlen]
      cases h1 : client.searchIssues (subtaskJQL p)
      · simp
      · cases h2 : client.searchIssues (combinedJQL p) <;>
          simp [subtaskJQL_ne_combinedJQL p]
    · simp only [GetChildIssues, if_neg hlen]
      cases h2 : client.searchIssues (combinedJQL p) <;> simp

/-- Witness for C3: the concrete batch failure aborts with the fixed message
and a single issued query. -/
theorem c3_resolver_errors_witness :
    GetChildIssues clientC3 parentC1 =
      (.error ("failed to batch fetch subtasks: " ++ "boom"), [subtaskJQL parentC1]) :=
  (c3_resolver_errors clientC3 parentC1 "boom").1 (by decide) rfl

/-! ## C2 -/

theorem depthOKListN_eq_all (n : Nat) (l : List Issue) :
    depthOKListN n l = l.all (depthOKN n) := by
  induction l with
  | nil => simp [depthOKListN]
  | cons c rest ih => simp [depthOKListN, ih]

theorem buildChildrenWith_ok (f : Issue → (Issue × Option String) × List String)
    (P : Issue → Bool) (hf : ∀ c t, (f c).1 = (t, none) → P t = true) :
    ∀ (cs built : List Issue) (tr : List String),
      buildChildrenWith f cs = ((built, none), tr) → built.all P = true := by
  intro cs
  induction cs with
  | nil =>
    intro built tr h
    simp only [buildChildrenWith, Prod.mk.injEq] at h
    obtain ⟨⟨h1, -⟩, -⟩ := h
    subst h1
    rfl
  | cons c rest ih =>
    intro built tr h
    simp only [buildChildrenWith] at h
    cases hfc : f c with
    | mk pr tr1 =>
      cases pr with
      | mk c2 cerr =>
        rw [hfc] at h
        cases cerr with
        | some e => simp at h
        | none =>
          cases hrest : buildChildrenWith f rest with
          | mk pr2 tr2 =>
            cases pr2 with
            | mk rest2 err2 =>
              rw [hrest] at h
              simp only [Prod.mk.injEq] at h
              obtain ⟨⟨hb, he⟩, -⟩ := h
              subst hb
              subst he
              have hc2 : P c2 = true := hf c c2 (by rw [hfc])
              have hr : rest2.all P = true := ih rest2 tr2 hrest
              simp [List.all_cons, hc2, hr]

theorem buildFuel_ok (client : Client) :
    ∀ (n : Nat) (issue t : Issue),
      (buildFuel client n issue).1 = (t, none) → depthOKN n t = true := by
  intro n
  induction n with
  | zero =>
    intro issue t h
    simp only [buildFuel, Prod.mk.injEq] at h
    obtain ⟨h1, -⟩ := h
    subst h1
    cases issue
    simp [Issue.setChildren, depthOKN]
  | succ n ih =>
    intro issue t h
    simp only [buildFuel] at h
    cases hg : GetChildIssues client issue with
    | mk r tr =>
      rw [hg] at h
      cases r with
      | error e => simp at h
      | ok cs =>
        simp only [Prod.mk.injEq] at h
        obtain ⟨h1, h2⟩ := h
        subst h1
        have hb : buildChildrenWith (buildFuel client n) cs =
            (((buildChildrenWith (buildFuel client n) cs).1.1, none),
              (buildChildrenWith (buildFuel client n) cs).2) := by
          rw [← h2]
        cases issue with
        | mk k f par ch =>
          show depthOKN (n + 1)
            (Issue.mk k f par (buildChildrenWith (buildFuel client n) cs).1.1) = true
          have hd : depthOKN (n + 1)
              (Issue.mk k f par (buildChildrenWith (buildFuel client n) cs).1.1) =
              depthOKListN n (buildChildrenWith (buildFuel client n) cs).1.1 := by
            simp [depthOKN]
          rw [hd, depthOKListN_eq_all]
          exact buildChildrenWith_ok (buildFuel client n) (depthOKN n) ih cs _ _ hb

/-- C2: the depth budget is a hard cutoff.  With `maxDepth ≤ 0` the builder
sets the children to the empty sequence and returns success having issued no
query; and every successfully built tree satisfies the depth invariant — a node
at distance `d` below the root has empty children whenever `maxDepth - d ≤ 0`
(`depthOKN` at fuel `maxDepth.toNat`). -/
theorem c2_depth_budget :
    (∀ (client : Client) (issue : Issue) (maxDepth : Int), maxDepth ≤ 0 →
      BuildIssueTree client issue maxDepth = ((issue.setChildren [], none), [])) ∧
    (∀ (client : Client) (issue : Issue) (maxDepth : Int) (t : Issue),
      (BuildIssueTree client issue maxDepth).1 = (t, none) →
      depthOKN maxDepth.toNat t = true) := by
  constructor
  · intro client issue maxDepth h
    unfold BuildIssueTree
    rw [Int.toNat_of_nonpos h]
    rfl
  · intro client issue maxDepth t h
    exact buildFuel_ok client maxDepth.toNat issue t h

/-- Witness for C2: a four-level-deep hierarchy (R, A, B, C) built with
`maxDepth = 2` yields a tree exactly two levels deep below the root — B is
present with empty children, C is cut off — and `maxDepth = 0` issues no
query. -/
theorem c2_depth_budget_witness :
    depthOKN ((2 : Int)).toNat (((BuildIssueTree client4 issueR 2).1).1) = true ∧
    ((BuildIssueTree client4 issueR 2).1).1 =
      issueR.setChildren [issueA.setChildren [issueB.setChildren []]] ∧
    BuildIssueTree client4 issueR 0 = ((issueR.setChildren [], none), []) :=
  ⟨c2_depth_budget.2 client4 issueR 2 _ rfl, rfl,
    c2_depth_budget.1 client4 issueR 0 (by decide)⟩

/-! ## C10 -/

theorem buildChildrenWith_err (f : Issue → (Issue × Option String) × List String) :
    ∀ (cs built : List Issue) (e : String) (tr : List String),
      buildChildrenWith f cs = ((built, some e), tr) →
      ∃ pre ck post, cs = pre ++ ck :: post ∧
        built = pre.map (fun c => (f c).1.1) ∧
        (∀ c ∈ pre, (f c).1.2 = none) ∧
        (f ck).1.2 = some e := by
  intro cs
  induction cs with
  | nil =>
    intro built e tr h
    simp only [buildChildrenWith, Prod.mk.injEq] at h
    exact absurd h.1.2 (by simp)
  | cons c rest ih =>
    intro built e tr h
    simp only [buildChildrenWith] at h
    cases hfc : f c with
    | mk pr tr1 =>
      cases pr with
      | mk c2 cerr =>
        rw [hfc] at h
        cases cerr with
        | some e2 =>
          simp only [Prod.mk.injEq] at h
          obtain ⟨⟨hb, he⟩, -⟩ := h
          subst hb
          refine ⟨[], c, rest, rfl, rfl, by simp, ?_⟩
          rw [hfc]
          exact he
        | none =>
          cases hrest : buildChildrenWith f rest with
          | mk pr2 tr2 =>
            cases pr2 with
            | mk rest2 err2 =>
              rw [hrest] at h
              simp only [Prod.mk.injEq] at h
              obtain ⟨⟨hb, he⟩, -⟩ := h
              subst hb
              subst he
              obtain ⟨pre, ck, post, hsplit, hbuilt, hpre, hck⟩ := ih rest2 e tr2 hrest
              refine ⟨c :: pre, ck, post, by rw [hsplit, List.cons_append], ?_, ?_, hck⟩
              · simp only [List.map_cons, hbuilt]
                have hfc1 : (f c).1.1 = c2 := by rw [hfc]
                rw [hfc1]
              · intro x hx
                rcases List.mem_cons.1 hx with hx | hx
                · subst hx
                  rw [hfc]
                · exact hpre x hx

/-- C10: `BuildIssueTree` is not atomic on failure.  If the resolver succeeded
on the node but some child's recursive build failed, the returned node's
children are exactly the fully built children that preceded the failing one
(possibly a non-empty partial list); if the resolver itself failed, the node is
returned untouched, children included.  No rollback happens in either case. -/
theorem c10_partial_children :
    (∀ (client : Client) (m : Int) (issue t : Issue) (e : String)
        (cs : List Issue) (tr : List String),
      GetChildIssues client issue = (.ok cs, tr) →
      (BuildIssueTree client issue m).1 = (t, some e) →
      ∃ pre ck post, cs = pre ++ ck :: post ∧
        t.children = pre.map (fun c => ((BuildIssueTree client c (m - 1)).1).1) ∧
        (∀ c ∈ pre, ((BuildIssueTree client c (m - 1)).1).2 = none) ∧
        ((BuildIssueTree client ck (m - 1)).1).2 = some e) ∧
    (∀ (client : Client) (m : Int) (issue t : Issue) (e ge : String)
        (tr : List String),
      GetChildIssues client issue = (.error ge, tr) →
      (BuildIssueTree client issue m).1 = (t, some e) →
      t = issue) := by
  constructor
  · intro client m issue t e cs tr hg h
    unfold BuildIssueTree at h
    cases hn : m.toNat with
    | zero =>
      rw [hn] at h
      simp only [buildFuel, Prod.mk.injEq] at h
      exact absurd h.2 (by simp)
    | succ n =>
      rw [hn] at h
      simp only [buildFuel] at h
      rw [hg] at h
      simp only [Prod.mk.injEq] at h
      obtain ⟨h1, h2⟩ := h
      subst h1
      have hb : buildChildrenWith (buildFuel client n) cs =
          (((buildChildrenWith (buildFuel client n) cs).1.1, some e),
            (buildChildrenWith (buildFuel client n) cs).2) := by
        rw [← h2]
      have hm1 : (m - 1).toNat = n := by omega
      obtain ⟨pre, ck, post, hsplit, hbuilt, hpre, hck⟩ :=
        buildChildrenWith_err (buildFuel client n) cs _ e _ hb
      refine ⟨pre, ck, post, hsplit, ?_, ?_, ?_⟩
      · rw [setChildren_children]
        unfold BuildIssueTree
        rw [hm1]
        exact hbuilt
      · unfold BuildIssueTree
        rw [hm1]
        exact hpre
      · unfold BuildIssueTree
        rw [hm1]
        exact hck
  · intro client m issue t e ge tr hg h
    unfold BuildIssueTree at h
    cases hn : m.toNat with
    | zero =>
      rw [hn] at h
      simp only [buildFuel, Prod.mk.injEq] at h
      exact absurd h.2 (by simp)
    | succ n =>
      rw [hn] at h
      simp only [buildFuel] at h
      rw [hg] at h
      simp only [Prod.mk.injEq] at h
      exact h.1.symm

/-- Witness for C10: building R at depth 2 where A resolves and B's query
fails leaves R's children as the non-empty partial list containing exactly the
fully built A. -/
theorem c10_partial_children_witness :
    ∃ pre ck post, [issueA, issueB] = pre ++ ck :: post ∧
      (issueR.setChildren [issueA.setChildren []]).children =
        pre.map (fun c => ((BuildIssueTree clientC10 c (2 - 1)).1).1) ∧
      (∀ c ∈ pre, ((BuildIssueTree clientC10 c (2 - 1)).1).2 = none) ∧
      ((BuildIssueTree clientC10 ck (2 - 1)).1).2 =
        some "failed to get child issues for B: JQL search failed for 'parent = B OR \"Epic Link\" = B': boom" :=
  c10_partial_children.1 clientC10 2 issueR
    (issueR.setChildren [issueA.setChildren []])
    "failed to get child issues for B: JQL search failed for 'parent = B OR \"Epic Link\" = B': boom"
    [issueA, issueB] [combinedJQL issueR] rfl rfl

/-! ## C4 -/

/-- C4: forward-render connector correctness.  The root (depth 0, no populated
ancestor) is printed with no connector and passes the empty indent to its
children; every node at depth ≥ 1 is printed with `└── ` exactly when it is the
last sibling and `├── ` otherwise, and passes its own indent extended by four
spaces (if last) or `│   ` (if not); a three-child sequence renders its first
two children as non-last and the third as last; and the end-to-end scenario
tree renders with exactly the documented glyphs. -/
theorem c4_forward_connectors :
    (∀ (showAll : Bool) (k : String) (f : IssueFields) (ch : List Issue)
        (pfx : String) (isLast : Bool),
      renderTree showAll (some (Issue.mk k f none ch)) pfx 0 isLast =
        (pfx ++ formatIssueInfo showAll (Issue.mk k f none ch))
          :: renderTreeChildren showAll "" 1 ch) ∧
    (∀ (showAll : Bool) (k : String) (f : IssueFields) (par : Option Issue)
        (ch : List Issue) (pfx : String) (d : Int) (isLast : Bool), 1 ≤ d →
      renderTree showAll (some (Issue.mk k f par ch)) pfx d isLast =
        (pfx ++ (if isLast then "└── " else "├── ")
            ++ formatIssueInfo showAll (Issue.mk k f par ch))
          :: renderTreeChildren showAll
              (if isLast then pfx ++ "    " else pfx ++ "│   ") (d + 1) ch) ∧
    (∀ (showAll : Bool) (pfx : String) (d : Int) (a b c : Issue),
      renderTreeChildren showAll pfx d [a, b, c] =
        renderTree showAll (some a) pfx d false
          ++ renderTree showAll (some b) pfx d false
          ++ renderTree showAll (some c) pfx d true) ∧
    renderTree false (some scenarioEpic1f) "" 0 true =
      ["EPIC-1: Epic one [Open]",
        "├── STORY-1: Story one [Open]",
        "│   └── SUB-1: Sub one [Open]",
        "└── STORY-2: Story two [Open]"] := by
  refine ⟨?_, ?_, ?_, ?_⟩
  · intro showAll k f ch pfx isLast
    simp only [renderTree, Option.isNone_none, and_true]
    rw [if_pos (by omega : (0 : Int) ≤ 0), if_pos (by omega : (0 : Int) ≤ 0)]
    rw [strAppend_empty]
    norm_num
  · intro showAll k f par ch pfx d isLast hd
    have hcond : ¬((d : Int) ≤ 0 ∧ par.isNone = true) := fun hc => absurd hc.1 (by omega)
    simp only [renderTree]
    rw [if_neg hcond, if_neg hcond]
  · intro showAll pfx d a b c
    simp only [renderTreeChildren, List.append_assoc]
  · have hlines : renderTree false (some scenarioEpic1f) "" 0 true =
        ("" ++ "" ++ formatIssueInfo false scenarioEpic1f)
          :: (renderTree false (some STORY1) "" 1 false
            ++ renderTree false (some STORY2) "" 1 true) := by
      simp [renderTree, renderTreeChildren, scenarioEpic1f]
    rw [hlines]
    have h1 : renderTree false (some STORY1) "" 1 false =
        ("" ++ "├── " ++ formatIssueInfo false STORY1)
          :: renderTree false (some SUB1) ("" ++ "│   ") 2 true := by
      simp [renderTree, renderTreeChildren, STORY1]
    have h2 : renderTree false (some STORY2) "" 1 true =
        [("" ++ "└── " ++ formatIssueInfo false STORY2)] := by
      simp [renderTree, renderTreeChildren, STORY2]
    have h3 : renderTree false (some SUB1) ("" ++ "│   ") 2 true =
        [("" ++ "│   " ++ "└── " ++ formatIssueInfo false SUB1)] := by
      simp [renderTree, renderTreeChildren, SUB1]
    rw [h1, h2, h3]
    decide

/-- Witness for C4 at a concrete non-root node: last sibling at depth 1 gets
the `└── ` connector and passes a four-space-extended indent to its children. -/
theorem c4_forward_connectors_witness :
    renderTree false (some (Issue.mk "X" (mkFields "Story" "Node" "Open" []) none []))
        "P" 1 true =
      ("P" ++ "└── "
          ++ formatIssueInfo false (Issue.mk "X" (mkFields "Story" "Node" "Open" []) none []))
        :: renderTreeChildren false ("P" ++ "    ") 2 [] :=
  c4_forward_connectors.2.1 false "X" (mkFields "Story" "Node" "Open" []) none []
    "P" 1 true (by decide)

/-! ## C6 -/

/-- C6: reverse-render order.  Every node's reverse render is the concatenation
of its children's reverse renders (post-order), then its own line, then the
recursive render of its ancestor chain; on the end-to-end scenario with the
ancestor chain EPIC-0 above EPIC-1, the output lists the SUB-1/STORY-1/STORY-2
descendants first, then EPIC-1, then EPIC-0. -/
theorem c6_reverse_order :
    (∀ (showAll : Bool) (k : String) (f : IssueFields) (par : Option Issue)
        (ch : List Issue) (pfx : String) (d : Int) (isLast : Bool),
      renderTreeReverse showAll (some (Issue.mk k f par ch)) pfx d isLast =
        renderTreeReverseChildren showAll
            (if d ≤ 0 then "" else if isLast then pfx ++ "    " else pfx ++ "│   ")
            (d + 1) ch
          ++ [pfx ++ (if d ≤ 0 then "" else if isLast then "└── " else "├── ")
              ++ formatIssueInfo showAll (Issue.mk k f par ch)]
          ++ renderTreeReverse showAll par "" (d - 1) true) ∧
    renderTreeReverse false (some scenarioEpic1) "" 0 true =
      ["│   └── SUB-1: Sub one [Open]",
        "├── STORY-1: Story one [Open]",
        "└── STORY-2: Story two [Open]",
        "EPIC-1: Epic one [Open]",
        "EPIC-0: Epic zero [Open]"] := by
  constructor
  · intro showAll k f par ch pfx d isLast
    simp only [renderTreeReverse]
  · have hsub : renderTreeReverse false (some SUB1) ("" ++ "│   ") 2 true =
        [("" ++ "│   ") ++ "└── " ++ formatIssueInfo false SUB1] := by
      simp [renderTreeReverse, renderTreeReverseChildren, SUB1]
    have h1 : renderTreeReverse false (some STORY1) "" 1 false =
        renderTreeReverse false (some SUB1) ("" ++ "│   ") 2 true
          ++ ["" ++ "├── " ++ formatIssueInfo false STORY1] := by
      simp [renderTreeReverse, renderTreeReverseChildren, STORY1]
    have h2 : renderTreeReverse false (some STORY2) "" 1 true =
        ["" ++ "└── " ++ formatIssueInfo false STORY2] := by
      simp [renderTreeReverse, renderTreeReverseChildren, STORY2]
    have h0 : renderTreeReverse false (some EPIC0) "" (-1) true =
        ["" ++ "" ++ formatIssueInfo false EPIC0] := by
      simp [renderTreeReverse, renderTreeReverseChildren, EPIC0]
    have hall : renderTreeReverse false (some scenarioEpic1) "" 0 true =
        (renderTreeReverse false (some STORY1) "" 1 false
            ++ renderTreeReverse false (some STORY2) "" 1 true)
          ++ ["" ++ "" ++ formatIssueInfo false scenarioEpic1]
          ++ renderTreeReverse false (some EPIC0) "" (0 - 1) true := by
      simp [renderTreeReverse, renderTreeReverseChildren, scenarioEpic1]
    rw [hall, h1, h2, hsub]
    norm_num
    rw [h0]
    decide

/-! ## C5 -/

theorem truncateString_total (s : List Nat) (m : Int) (h : 3 ≤ m) :
    ∃ r, truncateString s m = some r := by
  unfold truncateString
  split_ifs with h1 h2
  · exact ⟨_, rfl⟩
  · exact ⟨_, rfl⟩
  · omega

theorem buildTableRow_total (showAll : Bool) (issue : Issue) (d : Int) :
    ∃ row, buildTableRow showAll issue d = some row := by
  cases showAll with
  | true =>
    obtain ⟨r, hr⟩ := truncateString_total (utf8Encode issue.fields.summary) 40 (by omega)
    simp only [buildTableRow, if_pos rfl, hr]
    exact ⟨_, rfl⟩
  | false =>
    obtain ⟨r, hr⟩ := truncateString_total (utf8Encode issue.fields.summary) 50 (by omega)
    simp only [buildTableRow, hr]
    exact ⟨_, rfl⟩

theorem collect_eq_spec (showAll : Bool) :
    ∀ (n : Nat),
      (∀ (t : Issue) (d : Int), sizeOf t < n → noAncestor t = true →
        collectTableRowsRecursively showAll (some t) d =
          some (specRowsFlatten showAll t d) ∧
        (specRowsFlatten showAll t d).length = treeSize t) ∧
      (∀ (l : List Issue) (d : Int), sizeOf l < n → noAncestorList l = true →
        collectChildRows showAll l d = some (specRowsList showAll l d) ∧
        (specRowsList showAll l d).length = treeSizeList l) := by
  intro n
  induction n with
  | zero => exact ⟨fun t d hsz _ => absurd hsz (by omega), fun l d hsz _ => absurd hsz (by omega)⟩
  | succ n ih =>
    constructor
    · intro t d hsz hna
      cases t with
      | mk k f par ch =>
        simp only [noAncestor, Bool.and_eq_true] at hna
        have hpar : par = none := Option.isNone_iff_eq_none.mp hna.1
        subst hpar
        have hch : sizeOf ch < n := by
          simp only [Issue.mk.sizeOf_spec] at hsz
          omega
        obtain ⟨row, hrow⟩ := buildTableRow_total showAll (Issue.mk k f none ch) d
        obtain ⟨hcoll, hlen⟩ := ih.2 ch (d + 1) hch hna.2
        constructor
        · simp only [collectTableRowsRecursively, hrow, hcoll, Option.some_bind,
            specRowsFlatten, Option.getD_some]
          simp
        · simp only [specRowsFlatten, hrow, Option.getD_some, List.length_cons, treeSize]
          omega
    · intro l d hsz hnl
      cases l with
      | nil =>
        constructor
        · simp [collectChildRows, specRowsList]
        · simp [specRowsList, treeSizeList]
      | cons c rest =>
        simp only [noAncestorList, Bool.and_eq_true] at hnl
        have hc : sizeOf c < n := by
          simp only [List.cons.sizeOf_spec] at hsz
          omega
        have hrest : sizeOf rest < n := by
          simp only [List.cons.sizeOf_spec] at hsz
          omega
        obtain ⟨h1, l1⟩ := ih.1 c d hc hnl.1
        obtain ⟨h2, l2⟩ := ih.2 rest d hrest hnl.2
        constructor
        · simp only [collectChildRows, h1, h2, Option.some_bind, specRowsList]
        · simp only [specRowsList, List.length_append, treeSizeList]
          omega

/-- C5: for every tree the Tree Builder can produce (no ancestor back-reference
populated anywhere), the tabular flatten succeeds and emits exactly the
pre-order rows of the descendant subtree (`specRowsFlatten`, worded from the
spec), whose number equals the total node count of the subtree. -/
theorem c5_flatten_row_count (showAll : Bool) (t : Issue) (d : Int)
    (h : noAncestor t = true) :
    collectTableRowsRecursively showAll (some t) d =
      some (specRowsFlatten showAll t d) ∧
    (specRowsFlatten showAll t d).length = treeSize t :=
  (collect_eq_spec showAll (sizeOf t + 1)).1 t d (by omega) h

/-- Witness for C5 on the four-node scenario tree. -/
theorem c5_flatten_row_count_witness :
    collectTableRowsRecursively false (some scenarioEpic1f) 0 =
      some (specRowsFlatten false scenarioEpic1f 0) ∧
    (specRowsFlatten false scenarioEpic1f 0).length = treeSize scenarioEpic1f :=
  c5_flatten_row_count false scenarioEpic1f 0
    (by simp [noAncestor, noAncestorList, scenarioEpic1f, STORY1, STORY2, SUB1])

end Gira
